import Mathlib

/-
Verification development for the tools-email mail relay gateway.

The definitions below are a shallow embedding of the Go source:
  - src/email/engine_setup.go   (Engine.QueueEmail, Engine.SendEmail,
                                 extractHostFromAddress)
  - the engine lifecycle file   (Engine.Shutdown, Engine.New)
  - the inbound session handler (Session.Rcpt, Session.Data)
  - the env package             (emailDebounce map, its sweep goroutine,
                                 configuration defaults)
Machine integers are modelled as Nat, byte payloads as List Nat, network
and clock effects as explicit oracle parameters, and the process-wide
mutable state (queue channel, debounce map, shutdown once-flag) as
explicit state passed through the functions.
-/

/-- Mirrors the Go struct email.Address: a display name plus an address. -/
structure Address where
  Name : String
  Address : String
deriving DecidableEq, Repr

/-- Mirrors the Go struct email.Attachment / env.EmailAttachment. -/
structure Attachment where
  ContentType : String
  Filename : String
  Data : List Nat
  Inline : Bool
deriving DecidableEq, Repr

/-- Mirrors the Go struct email.Email: sender, recipients, subject,
content, content-kind flag and attachments. -/
structure Email where
  From : Address
  To : List Address
  Subject : String
  Content : String
  HTML : Bool
  Attachments : List Attachment
deriving DecidableEq, Repr

/-- Mirrors Go net.MX: a candidate delivery host plus its preference rank. -/
structure MX where
  Host : String
  Pref : Nat
deriving DecidableEq, Repr

/-! ## Outbound queue (engine_setup.go, Engine.QueueEmail)

The Go queue is a buffered channel `make(chan *Email, 1024)`; QueueEmail
does a `select` with a `default` branch, so it appends when the buffer
has room and otherwise returns false without touching the queue.  The
channel buffer is modelled as a list together with its fixed capacity. -/

/-- Embedding of Engine.QueueEmail: non-blocking enqueue on a bounded
buffer.  Returns the accepted flag together with the new queue state. -/
def QueueEmail (capacity : Nat) (queue : List Email) (e : Email) :
    Bool × List Email :=
  if queue.length < capacity then (true, queue ++ [e]) else (false, queue)

/-! ## Destination resolver (engine_setup.go, extractHostFromAddress) -/

/-- Splits a character list at the first occurrence of `sep`, returning
the parts before and after it; `none` when `sep` does not occur.  This is
Go strings.SplitN(s, sep, 2) restricted to a one-character separator:
SplitN yields two parts exactly when the separator occurs. -/
def splitFirstAt (sep : Char) : List Char → Option (List Char × List Char)
  | [] => none
  | c :: rest =>
    if c = sep then some ([], rest)
    else
      match splitFirstAt sep rest with
      | none => none
      | some (a, b) => some (c :: a, b)

/-- Embedding of extractHostFromAddress: Go splits on "@" with SplitN
limit 2 and errors when there is no "@" (fewer than two parts) or the
part after the first "@" is empty. -/
def extractHostFromAddress (address : String) : Except String String :=
  match splitFirstAt '@' address.toList with
  | none => Except.error ("invalid email address: " ++ address)
  | some (_, host) =>
    if host = [] then Except.error ("invalid email address: " ++ address)
    else Except.ok (String.mk host)

/-- Embedding of the resolver step of Engine.SendEmail (lines 175-191):
extract the host, then call net.LookupMX.  The DNS is an oracle
`lookupMX`; the returned Bool records whether net.LookupMX was invoked,
so that "no lookup is attempted" is expressible. -/
def resolveCandidates (lookupMX : String → Except String (List MX))
    (address : String) : Bool × Except String (List MX) :=
  match extractHostFromAddress address with
  | Except.error e => (false, Except.error e)
  | Except.ok host =>
    match lookupMX host with
    | Except.error e => (true, Except.error e)
    | Except.ok records => (true, Except.ok records)

/-! ## Inbound session recipient gate (Session.Rcpt)

The Go code is:
```
if toAddress != SMTP_ADDRESS_DMARC ||
    toAddress != SMTP_ADDRESS_NOREPLY ||
    toAddress != SMTP_ADDRESS_FORWARD {
    return ErrUnknownRecipient
}
return nil
```
and is embedded verbatim as the disjunction of the three inequalities. -/

/-- Embedding of Session.Rcpt: the allowlist check exactly as written in
the source, an OR of three inequalities. -/
def Rcpt (dmarcAddr noreplyAddr forwardAddr toAddress : String) :
    Except String Unit :=
  if toAddress ≠ dmarcAddr ∨ toAddress ≠ noreplyAddr ∨ toAddress ≠ forwardAddr
  then Except.error "Unknown Recipient"
  else Except.ok ()

/-- Configured inbox addresses under the env package defaults:
SMTP_USERNAME_DMARC = "dmarc", SMTP_USERNAME_NOREPLY = "noreply",
SMTP_USERNAME_FORWARD = "support", SMTP_DOMAIN = "example.org",
combined as username ++ "@" ++ domain in the env init. -/
def SMTP_ADDRESS_DMARC : String := "dmarc" ++ "@" ++ "example.org"

/-- Default no-reply inbox address, from the same env init. -/
def SMTP_ADDRESS_NOREPLY : String := "noreply" ++ "@" ++ "example.org"

/-- Default forward inbox address, from the same env init. -/
def SMTP_ADDRESS_FORWARD : String := "support" ++ "@" ++ "example.org"

/-! ## Delivery attempt loop (engine_setup.go, lines 193-213)

```
attemptErrors := []string{}
attemptTotal := max(int(e.OutgoingTimeout.Seconds()/10), 1)
for i := 0; i < attemptTotal; i++ {
    host := records[i%len(records)].Host
    if err := smtp.SendMail(...); err != nil {
        message := fmt.Sprintf("attempt %d/%d failed: %s", i+1, attemptTotal, err.Error())
        attemptErrors = append(attemptErrors, message)
        continue
    }
    return nil
}
return fmt.Errorf("email delivery failed: %s", strings.Join(attemptErrors, "\n"))
```
The timeout is modelled in whole seconds as a Nat, so the Go truncating
float conversion int(T.Seconds()/10) is Nat division T / 10.  The
network is an oracle mapping the attempt index and the host handed to
smtp.SendMail to `none` (delivery accepted) or `some errText` (the error
text of the failed attempt). -/

/-- Embedding of the attempt budget max(int(T.Seconds()/10), 1). -/
def attemptTotal (timeoutSeconds : Nat) : Nat :=
  max (timeoutSeconds / 10) 1

/-- Embedding of the candidate access records[i%len(records)].  In Go an
empty list panics with a division by zero; here the access is `Option`
valued, and it is `some` exactly when the index is in bounds. -/
def candidateAt (records : List MX) (i : Nat) : Option MX :=
  records.get? (i % records.length)

/-- Host handed to smtp.SendMail on attempt `i` (the empty string only in
the unreachable empty-candidate-list case). -/
def hostAt (records : List MX) (i : Nat) : String :=
  ((candidateAt records i).map MX.Host).getD ""

/-- Embedding of the per-attempt failure message
fmt.Sprintf("attempt %d/%d failed: %s", i+1, attemptTotal, err). -/
def attemptMessage (i total : Nat) (errText : String) : String :=
  "attempt " ++ toString (i + 1) ++ "/" ++ toString total ++ " failed: " ++ errText

/-- Embedding of the aggregate failure
fmt.Errorf("email delivery failed: %s", strings.Join(attemptErrors, "\n")). -/
def aggregateFailure (attemptErrors : List String) : String :=
  "email delivery failed: " ++ String.intercalate "\n" attemptErrors

/-- Embedding of the attempt loop from index `i` with the errors
accumulated so far.  Returns the hosts actually contacted (in order)
together with the result: a first successful handoff short-circuits with
`ok`, exhaustion of the budget yields the aggregate error. -/
def deliverLoop (records : List MX) (net : Nat → String → Option String)
    (total : Nat) (i : Nat) (attemptErrors : List String) :
    List String × Except String Unit :=
  if h : i < total then
    match net i (hostAt records i) with
    | none => ([hostAt records i], Except.ok ())
    | some errText =>
      let rest := deliverLoop records net total (i + 1)
        (attemptErrors ++ [attemptMessage i total errText])
      (hostAt records i :: rest.1, rest.2)
  else ([], Except.error (aggregateFailure attemptErrors))
termination_by total - i

/-- One per-recipient delivery: the attempt loop started at index 0 with
no accumulated errors, budget attemptTotal. -/
def deliverOnce (records : List MX) (net : Nat → String → Option String)
    (timeoutSeconds : Nat) : List String × Except String Unit :=
  deliverLoop records net (attemptTotal timeoutSeconds) 0 []

/-! ## Engine.SendEmail control flow (engine_setup.go, lines 109-216)

The sanity check and middleware chain precede the per-recipient loop.
Inside `for _, addressee := range email.To { ... }` every branch of the
loop body ends in a `return`: build, encode, sign, host-extraction and
lookup failures return the error; exhaustion of the attempt budget
returns the aggregate error; a successful handoff returns nil.  The
recipients after the first are therefore never reached.  The whole
per-recipient pipeline (build + sign + resolve + attempt loop) is
abstracted as the oracle `deliver`. -/

/-- Embedding of the middleware chain: the first middleware returning
proceed = false cancels with its error text. -/
def runOutgoingMiddleware : List (Email → Bool × String) → Email → Option String
  | [], _ => none
  | mw :: rest, e =>
    match mw e with
    | (true, _) => runOutgoingMiddleware rest e
    | (false, msg) => some msg

/-- Embedding of the recipient loop of Engine.SendEmail.  Both match arms
return without recursing into `remaining`, because in the source every
branch of the loop body is a `return` statement; the final `([], ok)` is
the `return nil` after the loop, reached only with no recipients left.
Returns the recipients actually processed together with the result. -/
def sendToRecipients (deliver : Address → Except String Unit) :
    List Address → List Address × Except String Unit
  | [] => ([], Except.ok ())
  | addressee :: _remaining =>
    match deliver addressee with
    | Except.ok _ => ([addressee], Except.ok ())
    | Except.error msg => ([addressee], Except.error msg)

/-- Embedding of Engine.SendEmail: recipient sanity check, middleware
chain, then the per-recipient loop. -/
def SendEmail (outgoingMiddleware : List (Email → Bool × String))
    (deliver : Address → Except String Unit) (email : Email) :
    List Address × Except String Unit :=
  if email.To.length = 0 then ([], Except.error "no recipients")
  else
    match runOutgoingMiddleware outgoingMiddleware email with
    | some msg => ([], Except.error ("cancelled by middleware: " ++ msg))
    | none => sendToRecipients deliver email.To

/-! ## No-reply auto-responder and duplicate suppression (Session.Data)

The relevant Go branch, entered for a verified envelope whose To address
equals SMTP_ADDRESS_NOREPLY:
```
if SMTP_DISABLE_NOREPLY == "" {
    return ErrUnknownRecipient
}
if _, ok := emailDebounce.Load(From.Address); ok {
    return nil
}
emailDebounce.Store(From.Address, time.Now().Add(time.Hour))
QueueEmail(Email{ FromName: SMTP_ADDRESS_NOREPLY, ..., Subject: "Need Help?", ... })
return nil
```
emailDebounce is a sync.Map from sender address to the expiry timestamp;
it is modelled as an association list, time as Nat seconds.  Load checks
presence only; it never compares the stored expiry with the clock. -/

/-- sync.Map.Load on the debounce map: presence lookup by sender key. -/
def mapLoad (m : List (String × Nat)) (k : String) : Option Nat :=
  m.lookup k

/-- sync.Map.Store on the debounce map: insert or overwrite the key. -/
def mapStore (m : List (String × Nat)) (k : String) (v : Nat) :
    List (String × Nat) :=
  (k, v) :: m.filter (fun kv => kv.1 ≠ k)

/-- Embedding of the sweep body in the env package init goroutine: for
each entry, delete it when time.Now().After(sent), i.e. keep it when the
stored timestamp is not strictly in the past. -/
def sweepDebounce (now : Nat) (m : List (String × Nat)) :
    List (String × Nat) :=
  m.filter (fun kv => ¬ kv.2 < now)

/-- The times at which the sweep goroutine body runs.  The Go code builds
`t := time.NewTimer(time.Hour)` and loops `for range t.C`: a Timer fires
exactly once and is never reset inside the loop, so the body runs at
startup + one hour and then the loop blocks forever.  One hour is 3600
seconds. -/
def timerSweepTimes (startup : Nat) : List Nat :=
  [startup + 3600]

/-- Outcome of the Data handler on the no-reply branch. -/
inductive DataOutcome where
  | rejected
  | accepted
  | acceptedQueued (queued : Email)
deriving DecidableEq, Repr

/-- The auto-reply synthesized by the no-reply branch: from the no-reply
address, to the original sender, subject "Need Help?", templated HTML
content, one inline png attachment. -/
def noreplyAutoReply (noreplyAddr noreplyIndex : String)
    (noreplyImage : List Nat) (From : Address) : Email :=
  { From := ⟨noreplyAddr, noreplyAddr⟩
    To := [⟨From.Name, From.Address⟩]
    Subject := "Need Help?"
    Content := noreplyIndex
    HTML := true
    Attachments := [⟨"image/png", "robot.png", noreplyImage, true⟩] }

/-- Embedding of the no-reply branch of Session.Data: the disable-flag
gate, the debounce presence check, then store-and-enqueue.  Returns the
outcome together with the new debounce map. -/
def handleNoreply (disableNoreply noreplyAddr noreplyIndex : String)
    (noreplyImage : List Nat) (debounce : List (String × Nat)) (now : Nat)
    (From : Address) : DataOutcome × List (String × Nat) :=
  if disableNoreply = "" then (DataOutcome.rejected, debounce)
  else if (mapLoad debounce From.Address).isSome then
    (DataOutcome.accepted, debounce)
  else
    (DataOutcome.acceptedQueued
      (noreplyAutoReply noreplyAddr noreplyIndex noreplyImage From),
     mapStore debounce From.Address (now + 3600))

/-- An event of the no-reply subsystem: either the sweep goroutine body
runs, or an inbound verified envelope to the no-reply inbox arrives. -/
inductive MailEvent where
  | sweepAt (now : Nat)
  | triggerFrom (sender : Address) (now : Nat)
deriving DecidableEq, Repr

/-- Runs a time-ordered event sequence against the debounce map,
collecting the auto-replies handed to QueueEmail. -/
def runNoreplyEvents (disableNoreply noreplyAddr noreplyIndex : String)
    (noreplyImage : List Nat) :
    List MailEvent → List (String × Nat) → List Email →
    List (String × Nat) × List Email
  | [], m, q => (m, q)
  | MailEvent.sweepAt t :: rest, m, q =>
    runNoreplyEvents disableNoreply noreplyAddr noreplyIndex noreplyImage
      rest (sweepDebounce t m) q
  | MailEvent.triggerFrom s t :: rest, m, q =>
    match handleNoreply disableNoreply noreplyAddr noreplyIndex noreplyImage
        m t s with
    | (DataOutcome.acceptedQueued e, m2) =>
      runNoreplyEvents disableNoreply noreplyAddr noreplyIndex noreplyImage
        rest m2 (q ++ [e])
    | (_, m2) =>
      runNoreplyEvents disableNoreply noreplyAddr noreplyIndex noreplyImage
        rest m2 q

/-! ## Lifecycle shutdown (Engine.Shutdown)

Engine.Shutdown wraps the whole drain in `e.activeClosing.Do(func() {...})`
on a sync.Once: the first call performs the three drains (HTTP listener,
SMTP listener, queue close plus worker wait) and every later call runs
nothing.  The once-flag and the list of drain actions performed so far
are the state. -/

/-- The three drain actions performed by the shutdown closure. -/
inductive DrainAction where
  | httpDrain
  | smtpDrain
  | queueDrain
deriving DecidableEq, Repr

/-- One full drain sequence, as launched by the shutdown closure. -/
def drainSequence : List DrainAction :=
  [DrainAction.httpDrain, DrainAction.smtpDrain, DrainAction.queueDrain]

/-- Engine lifecycle state: the sync.Once consumed-flag plus the audit
trail of drain actions performed. -/
structure EngineState where
  onceDone : Bool
  performed : List DrainAction
deriving DecidableEq, Repr

/-- State of a freshly constructed engine (email.New): shutdown not yet
triggered, nothing drained. -/
def newEngineState : EngineState :=
  { onceDone := false, performed := [] }

/-- Embedding of Engine.Shutdown: sync.Once.Do runs the drain closure on
the first call only; later calls return without running it. -/
def Shutdown (s : EngineState) : EngineState :=
  if s.onceDone then s
  else { onceDone := true, performed := s.performed ++ drainSequence }

/-! ## Candidate ordering (engine_setup.go, lines 188-191)

```
sort.Slice(records, func(i, j int) bool {
    return records[i].Pref < records[j].Pref
})
```
Go sort.Slice is documented to sort by the provided less function and to
be NOT stable ("equal elements may be reversed from their original
order").  Its guaranteed contract — for the strict weak order
Pref < Pref — is: the result is a permutation of the input and carries no
descending pair.  The outcome is therefore modelled relationally: any
output satisfying the contract is a possible result of the call. -/

/-- Documented contract of the sort.Slice call on mail-exchange records:
the output is a permutation of the input and is weakly ascending by
preference rank.  Stability is deliberately absent: Go does not
guarantee it for sort.Slice. -/
def sortSliceContract (input output : List MX) : Prop :=
  input.Perm output ∧ output.Pairwise (fun a b => a.Pref ≤ b.Pref)

/-- Formalisation of the stability property claimed by the spec for the
resolver sort: any two input positions holding equal preference ranks
reappear in the output in their original relative order. -/
def tieOrderPreserved (input output : List MX) : Prop :=
  ∀ i : Fin input.length, ∀ j : Fin input.length, i.val < j.val →
    (input.get i).Pref = (input.get j).Pref →
    ∃ i2 : Fin output.length, ∃ j2 : Fin output.length, i2.val < j2.val ∧
      output.get i2 = input.get i ∧ output.get j2 = input.get j

/-! ## Concrete fixtures used by the theorems -/

/-- A two-recipient outbound message, as accepted by the ingress API. -/
def twoRecipientEmail : Email :=
  { From := ⟨"Support", "support@example.org"⟩
    To := [⟨"Alice", "alice@example.com"⟩, ⟨"Bob", "bob@example.com"⟩]
    Subject := "Hello World!"
    Content := "hi"
    HTML := false
    Attachments := [] }

/-- The sender used in the duplicate-suppression scenario. -/
def aliceSender : Address := ⟨"Alice", "alice@example.com"⟩

/-- Event trace for the suppression scenario: the single sweep the
one-shot timer ever produces (at second 3600 after startup), then two
no-reply triggers from the same sender at seconds 4000 and 8000 — the
second one 400 seconds after the first suppression entry expired. -/
def suppressionTrace : List MailEvent :=
  (timerSweepTimes 0).map MailEvent.sweepAt ++
    [MailEvent.triggerFrom aliceSender 4000,
     MailEvent.triggerFrom aliceSender 8000]

/-- C1: the claim reads that one Engine.SendEmail call produces one
delivery unit per recipient and that a failure for one recipient does
not block the rest.  On the code, every branch of the recipient loop
returns from the function, so on a two-recipient message only Alice is
ever processed: after a successful handoff to Alice the call returns nil
without touching Bob, and a failure for Alice fails the whole call,
likewise without touching Bob. -/
theorem sendEmail_stops_after_first_recipient :
    SendEmail [] (fun _ => Except.ok ()) twoRecipientEmail
      = ([⟨"Alice", "alice@example.com"⟩], Except.ok ())
  ∧ SendEmail [] (fun _ => Except.error "connection refused")
      twoRecipientEmail
      = ([⟨"Alice", "alice@example.com"⟩], Except.error "connection refused") :=
  ⟨rfl, rfl⟩

/-- C2: the claim reads that Session.Rcpt accepts exactly the three
configured inbox addresses.  The source condition
`toAddress != A || toAddress != B || toAddress != C` is true for every
string once the three addresses are pairwise distinct, so under the
default configuration every recipient — including each of the three
configured inboxes themselves — is rejected with the permanent
unknown-recipient error. -/
theorem rcpt_rejects_every_recipient :
    (∀ toAddress,
      Rcpt SMTP_ADDRESS_DMARC SMTP_ADDRESS_NOREPLY SMTP_ADDRESS_FORWARD
        toAddress = Except.error "Unknown Recipient")
  ∧ Rcpt SMTP_ADDRESS_DMARC SMTP_ADDRESS_NOREPLY SMTP_ADDRESS_FORWARD
      SMTP_ADDRESS_DMARC = Except.error "Unknown Recipient" := by
  constructor
  · intro toAddress
    unfold Rcpt
    rw [if_pos]
    by_cases h : toAddress = SMTP_ADDRESS_DMARC
    · refine Or.inr (Or.inl ?_)
      rw [h]
      decide
    · exact Or.inl h
  · rfl

/-- C3: the claim (and the README) read that auto-replies are on by
default and that setting SMTP_DISABLE_NOREPLY turns them off.  The code
tests `if SMTP_DISABLE_NOREPLY == "" { return ErrUnknownRecipient }`,
which is the exact inverse: with the variable empty (its default) the
verified no-reply envelope is rejected, and with the variable set the
handler proceeds to the suppression check and enqueues the auto-reply. -/
theorem noreply_disable_flag_inverted :
    (handleNoreply "" SMTP_ADDRESS_NOREPLY "helpIndex" [] [] 0 aliceSender).1
      = DataOutcome.rejected
  ∧ handleNoreply "1" SMTP_ADDRESS_NOREPLY "helpIndex" [] [] 0 aliceSender
      = (DataOutcome.acceptedQueued
          (noreplyAutoReply SMTP_ADDRESS_NOREPLY "helpIndex" [] aliceSender),
         [("alice@example.com", 3600)]) :=
  ⟨rfl, rfl⟩

/-- C5: the claim reads that a trigger after the suppression entry has
expired enqueues a second auto-reply, expiry being honored either at
lookup or by a periodic sweep.  In the code the lookup is a bare
sync.Map presence check with no expiry comparison, and the sweep
goroutine ranges over a one-shot time.Timer, so its body runs exactly
once (at startup + 3600 s) and never again.  On the trace below the
first trigger (second 4000) enqueues one auto-reply and records expiry
7600; the second trigger at second 8000 — after that expiry — is still
suppressed, leaving exactly one queued auto-reply and the stale entry in
the map.  (The flag is "1" because of the inverted disable gate.) -/
theorem debounce_expired_entry_still_suppresses :
    runNoreplyEvents "1" SMTP_ADDRESS_NOREPLY "helpIndex" []
      suppressionTrace [] []
      = ([("alice@example.com", 7600)],
         [noreplyAutoReply SMTP_ADDRESS_NOREPLY "helpIndex" [] aliceSender]) :=
  rfl

/-- C6: Engine.QueueEmail is a non-blocking boolean enqueue.  Below
capacity it returns true and appends the message; at capacity it returns
false and leaves the queue untouched; the capacity bound is never
exceeded. -/
theorem queueEmail_nonblocking_spec (capacity : Nat) (queue : List Email)
    (e : Email) (hcap : queue.length ≤ capacity) :
    (QueueEmail capacity queue e).1 = decide (queue.length < capacity)
  ∧ (queue.length < capacity →
      QueueEmail capacity queue e = (true, queue ++ [e]))
  ∧ (queue.length = capacity →
      QueueEmail capacity queue e = (false, queue))
  ∧ (QueueEmail capacity queue e).2.length ≤ capacity := by
  unfold QueueEmail
  by_cases h : queue.length < capacity
  · simp [h]
    omega
  · simp [h]
    omega

/-- Witness for queueEmail_nonblocking_spec at a full one-slot queue:
the enqueue is refused and the queue is unchanged. -/
theorem queueEmail_nonblocking_spec_witness :
    (QueueEmail 1 [twoRecipientEmail] twoRecipientEmail).1
      = decide ([twoRecipientEmail].length < 1)
  ∧ ([twoRecipientEmail].length < 1 →
      QueueEmail 1 [twoRecipientEmail] twoRecipientEmail
        = (true, [twoRecipientEmail] ++ [twoRecipientEmail]))
  ∧ ([twoRecipientEmail].length = 1 →
      QueueEmail 1 [twoRecipientEmail] twoRecipientEmail
        = (false, [twoRecipientEmail]))
  ∧ (QueueEmail 1 [twoRecipientEmail] twoRecipientEmail).2.length ≤ 1 :=
  queueEmail_nonblocking_spec 1 [twoRecipientEmail] twoRecipientEmail
    (by simp)

/-- C7: Engine.Shutdown is idempotent.  Shutdown of a shut-down state is
that state unchanged, and however many times Shutdown is called on a
fresh engine (k + 1 ≥ 1 calls), exactly one drain sequence — HTTP drain,
SMTP drain, queue close and worker drain — has been performed. -/
theorem shutdown_single_drain (s : EngineState) (k : Nat) :
    Shutdown (Shutdown s) = Shutdown s
  ∧ (Shutdown^[k + 1]) newEngineState
      = { onceDone := true, performed := drainSequence } := by
  constructor
  · unfold Shutdown
    by_cases h : s.onceDone <;> simp [h]
  · induction k with
    | zero => rfl
    | succ m ih =>
      rw [Function.iterate_succ_apply', ih]
      rfl

/-- C10: under the loop's implicit precondition that the resolved
candidate list is non-empty, the access records[i % len(records)] is in
bounds for every attempt index, while with zero candidates the access
denotes nothing (in Go, a division-by-zero panic): non-emptiness is the
hypothesis required for totality. -/
theorem candidateAt_in_bounds (records : List MX) (i : Nat)
    (hne : records ≠ []) :
    i % records.length < records.length
  ∧ (candidateAt records i).isSome = true
  ∧ ∀ j, candidateAt [] j = none := by
  have hpos : 0 < records.length := List.length_pos.mpr hne
  have hlt : i % records.length < records.length := Nat.mod_lt i hpos
  refine ⟨hlt, ?_, fun j => rfl⟩
  rw [candidateAt, List.get?_eq_get hlt]
  rfl

/-- Witness for candidateAt_in_bounds: one candidate, attempt index 5
wraps to index 0 and the access is defined. -/
theorem candidateAt_in_bounds_witness :
    5 % [MX.mk "mx1.example.com" 10].length < [MX.mk "mx1.example.com" 10].length
  ∧ (candidateAt [MX.mk "mx1.example.com" 10] 5).isSome = true
  ∧ ∀ j, candidateAt [] j = none :=
  candidateAt_in_bounds [MX.mk "mx1.example.com" 10] 5 (by simp)

/-- splitFirstAt finds nothing when the separator does not occur. -/
theorem splitFirstAt_eq_none {sep : Char} {l : List Char} (h : sep ∉ l) :
    splitFirstAt sep l = none := by
  induction l with
  | nil => rfl
  | cons c rest ih =>
    have hc : ¬ c = sep := fun hcs => h (hcs ▸ List.mem_cons_self c rest)
    have hrest : sep ∉ rest := fun hm => h (List.mem_cons_of_mem c hm)
    simp [splitFirstAt, hc, ih hrest]

/-- splitFirstAt splits exactly at the first occurrence of the
separator. -/
theorem splitFirstAt_first_occurrence {sep : Char} {l r : List Char}
    (h : sep ∉ l) : splitFirstAt sep (l ++ sep :: r) = some (l, r) := by
  induction l with
  | nil => simp [splitFirstAt]
  | cons c tl ih =>
    have hc : ¬ c = sep := fun hcs => h (hcs ▸ List.mem_cons_self c tl)
    have htl : sep ∉ tl := fun hm => h (List.mem_cons_of_mem c hm)
    simp [splitFirstAt, hc, ih htl]

/-- C8: an address with no "@" at all, or whose first "@" is its last
character (empty domain portion), is rejected by the resolver before any
mail-exchange lookup: the lookup-performed flag is false and the
extractHostFromAddress error is returned. -/
theorem resolver_rejects_before_lookup
    (lookupMX : String → Except String (List MX)) (address : String)
    (h : '@' ∉ address.toList ∨
         ∃ l, address.toList = l ++ ['@'] ∧ '@' ∉ l) :
    resolveCandidates lookupMX address
      = (false, Except.error ("invalid email address: " ++ address)) := by
  rcases h with hno | ⟨l, heq, hnotin⟩
  · rw [resolveCandidates, extractHostFromAddress, splitFirstAt_eq_none hno]
  · rw [resolveCandidates, extractHostFromAddress, heq]
    have : splitFirstAt '@' (l ++ ['@']) = some (l, []) :=
      splitFirstAt_first_occurrence hnotin
    rw [this]
    rfl

/-- Witness for resolver_rejects_before_lookup: the bare username
"bakonpancakz" carries no "@" and is rejected with no lookup. -/
theorem resolver_rejects_before_lookup_witness :
    resolveCandidates (fun _ => Except.ok []) "bakonpancakz"
      = (false, Except.error ("invalid email address: " ++ "bakonpancakz")) :=
  resolver_rejects_before_lookup (fun _ => Except.ok []) "bakonpancakz"
    (Or.inl (by decide))

/-- Two candidate servers sharing one preference rank. -/
def mxTieA : MX := ⟨"mx1.example.com", 10⟩

/-- The second of the two equal-rank candidate servers. -/
def mxTieB : MX := ⟨"mx2.example.com", 10⟩

/-- C9 counterexample: the claim reads that the resolver sort keeps
equal-rank records in their pre-existing relative order.  The code calls
Go sort.Slice, which guarantees only a permutation with no descending
pair and is documented as not stable.  The reversed list below is
therefore a permitted result of the call on [mxTieA, mxTieB], and it
violates the claimed tie-order preservation. -/
theorem sortSlice_stability_counterexample :
    sortSliceContract [mxTieA, mxTieB] [mxTieB, mxTieA]
  ∧ ¬ tieOrderPreserved [mxTieA, mxTieB] [mxTieB, mxTieA] := by
  constructor
  · exact ⟨List.Perm.swap mxTieB mxTieA [], by decide⟩
  · unfold tieOrderPreserved
    decide

/-- C9 amended: every result the sort.Slice call may produce is a
permutation of the looked-up records whose preference sequence is the
ascending sort of the input preference sequence — ascending order is
guaranteed, stability of ties is not. -/
theorem sortSlice_orders_by_pref (input output : List MX)
    (h : sortSliceContract input output) :
    output.Perm input
  ∧ output.map MX.Pref
      = (input.map MX.Pref).insertionSort (fun a b => a ≤ b) := by
  obtain ⟨hperm, hpair⟩ := h
  refine ⟨hperm.symm, ?_⟩
  have hp : (output.map MX.Pref).Perm
      ((input.map MX.Pref).insertionSort (fun a b => a ≤ b)) :=
    (hperm.symm.map MX.Pref).trans
      (List.perm_insertionSort (fun a b => a ≤ b) (input.map MX.Pref)).symm
  have hs1 : (output.map MX.Pref).Sorted (fun a b => a ≤ b) :=
    List.pairwise_map.mpr hpair
  have hs2 : ((input.map MX.Pref).insertionSort (fun a b => a ≤ b)).Sorted
      (fun a b => a ≤ b) :=
    List.sorted_insertionSort (fun a b => a ≤ b) (input.map MX.Pref)
  exact List.eq_of_perm_of_sorted hp hs1 hs2

/-- Witness for sortSlice_orders_by_pref at the tied pair and its
reversal. -/
theorem sortSlice_orders_by_pref_witness :
    [mxTieB, mxTieA].Perm [mxTieA, mxTieB]
  ∧ [mxTieB, mxTieA].map MX.Pref
      = ([mxTieA, mxTieB].map MX.Pref).insertionSort (fun a b => a ≤ b) :=
  sortSlice_orders_by_pref [mxTieA, mxTieB] [mxTieB, mxTieA]
    ⟨List.Perm.swap mxTieB mxTieA [], by decide⟩

/-- When every attempt in the window [i, total) fails, the loop contacts
the wraparound candidate for each remaining index and ends with the
aggregate of the accumulated and per-attempt failure messages. -/
theorem deliverLoop_all_fail (records : List MX)
    (net : Nat → String → Option String) (total : Nat) :
    ∀ n i attemptErrors, total - i = n →
    (∀ k, i ≤ k → k < total → (net k (hostAt records k)).isSome) →
    deliverLoop records net total i attemptErrors
      = ((List.range' i (total - i)).map (hostAt records),
         Except.error (aggregateFailure (attemptErrors ++
           (List.range' i (total - i)).map
             (fun k => attemptMessage k total
               ((net k (hostAt records k)).getD ""))))) := by
  intro n
  induction n with
  | zero =>
    intro i errs hni _hfail
    have hi : ¬ i < total := by omega
    have hz : total - i = 0 := by omega
    rw [deliverLoop, dif_neg hi, hz]
    simp
  | succ m ih =>
    intro i errs hni hfail
    have hi : i < total := by omega
    have hsome := hfail i (le_refl i) hi
    obtain ⟨msg, hmsg⟩ := Option.isSome_iff_exists.mp hsome
    have hstep : total - i = (total - (i + 1)) + 1 := by omega
    rw [deliverLoop, dif_pos hi, hmsg]
    simp only []
    rw [ih (i + 1) (errs ++ [attemptMessage i total msg]) (by omega)
      (fun k hk1 hk2 => hfail k (by omega) hk2)]
    rw [hstep, List.range'_succ]
    simp [hmsg, List.append_assoc]

/-- When attempts i..j-1 fail and attempt j succeeds (j within the
budget), the loop contacts exactly the candidates for indices i..j and
short-circuits with success. -/
theorem deliverLoop_first_success (records : List MX)
    (net : Nat → String → Option String) (total : Nat) :
    ∀ n i attemptErrors j, j - i = n → i ≤ j → j < total →
    (∀ k, i ≤ k → k < j → (net k (hostAt records k)).isSome) →
    net j (hostAt records j) = none →
    deliverLoop records net total i attemptErrors
      = ((List.range' i (j - i + 1)).map (hostAt records), Except.ok ()) := by
  intro n
  induction n with
  | zero =>
    intro i errs j hn hij hjt _hbefore hnone
    have hji : j = i := by omega
    have hi : i < total := by omega
    subst hji
    rw [deliverLoop, dif_pos hi, hnone]
    simp
  | succ m ih =>
    intro i errs j hn hij hjt hbefore hnone
    have hi : i < total := by omega
    have hij2 : i < j := by omega
    have hsome := hbefore i (le_refl i) hij2
    obtain ⟨msg, hmsg⟩ := Option.isSome_iff_exists.mp hsome
    rw [deliverLoop, dif_pos hi, hmsg]
    simp only []
    rw [ih (i + 1) (errs ++ [attemptMessage i total msg]) j (by omega)
      (by omega) hjt (fun k hk1 hk2 => hbefore k (by omega) hk2) hnone]
    have hstep : j - i + 1 = (j - (i + 1) + 1) + 1 := by omega
    rw [hstep]
    simp [List.range'_succ]

/-- Two candidate servers with distinct preference ranks, used to
exercise the retry wraparound. -/
def mxPair : List MX :=
  [⟨"mx1.example.com", 10⟩, ⟨"mx2.example.com", 20⟩]

/-- A network in which every handoff attempt is refused. -/
def netAllRefused : Nat → String → Option String :=
  fun _ _ => some "connection refused"

/-- A network in which the very first handoff attempt is accepted. -/
def netFirstOk : Nat → String → Option String :=
  fun k _ => if k = 0 then none else some "connection refused"

/-- C4: the per-recipient delivery makes exactly max(1, T/10) attempts,
attempt i targeting candidate i mod len(records) (hostAt wraps around
the candidate list); when every attempt fails, all per-attempt messages
are aggregated into the single failure error, and a first success at
attempt j short-circuits after exactly j + 1 attempts; T = 30 yields
exactly 3 attempts. -/
theorem sendEmail_retry_policy (records : List MX)
    (netFail netSucc : Nat → String → Option String) (T j : Nat)
    (hfail : ∀ k, k < attemptTotal T →
      (netFail k (hostAt records k)).isSome)
    (hj : j < attemptTotal T)
    (hbefore : ∀ k, k < j → (netSucc k (hostAt records k)).isSome)
    (hsucc : netSucc j (hostAt records j) = none) :
    attemptTotal T = max 1 (T / 10)
  ∧ attemptTotal 30 = 3
  ∧ (∀ i, hostAt records (i + records.length) = hostAt records i)
  ∧ deliverOnce records netFail T
      = ((List.range (attemptTotal T)).map (hostAt records),
         Except.error (aggregateFailure ((List.range (attemptTotal T)).map
           (fun k => attemptMessage k (attemptTotal T)
             ((netFail k (hostAt records k)).getD "")))))
  ∧ deliverOnce records netSucc T
      = ((List.range (j + 1)).map (hostAt records), Except.ok ()) := by
  refine ⟨Nat.max_comm (T / 10) 1, rfl, ?_, ?_, ?_⟩
  · intro i
    simp [hostAt, candidateAt, Nat.add_mod_right]
  · rw [deliverOnce,
      deliverLoop_all_fail records netFail (attemptTotal T)
        (attemptTotal T) 0 [] (by omega)
        (fun k _ hk2 => hfail k hk2)]
    simp [List.range_eq_range']
  · rw [deliverOnce,
      deliverLoop_first_success records netSucc (attemptTotal T)
        j 0 [] j (by omega) (by omega) hj
        (fun k _ hk2 => hbefore k hk2) hsucc]
    simp [List.range_eq_range']

/-- Witness for sendEmail_retry_policy: two candidates, a 30-second
budget (3 attempts), an all-refusing network and a network accepting the
first attempt. -/
theorem sendEmail_retry_policy_witness :
    attemptTotal 30 = max 1 (30 / 10)
  ∧ attemptTotal 30 = 3
  ∧ (∀ i, hostAt mxPair (i + mxPair.length) = hostAt mxPair i)
  ∧ deliverOnce mxPair netAllRefused 30
      = ((List.range (attemptTotal 30)).map (hostAt mxPair),
         Except.error (aggregateFailure ((List.range (attemptTotal 30)).map
           (fun k => attemptMessage k (attemptTotal 30)
             ((netAllRefused k (hostAt mxPair k)).getD "")))))
  ∧ deliverOnce mxPair netFirstOk 30
      = ((List.range (0 + 1)).map (hostAt mxPair), Except.ok ()) :=
  sendEmail_retry_policy mxPair netAllRefused netFirstOk 30 0
    (fun _ _ => rfl) (by decide) (fun k hk => absurd hk (Nat.not_lt_zero k))
    rfl
